import Mathlib

/-!
Verification development for the EZDB client library
(`src/client_libs/ezdb.c`, `src/client_libs/C/ezdb.c`).

The repository contains a C client (`connect_to_db_server`, `diffie_hellman`)
together with a commented Rust sketch of the intended protocol
(`Connection::connect`, `query_table`).  Both are embedded shallowly below:
byte strings are `List Nat` (each entry a byte value, reduced `% 256` where
the code computes bytes), network traffic is an explicit list of I/O events,
and the external cryptographic primitives (X25519, blake3, AES-256-GCM),
which are library calls and not part of this repository, are modelled as
deterministic Lean functions satisfying the contracts the specification
states for them.
-/

/-! ### Little-endian byte serialization -/

/-- Serialize the low `k` bytes of a natural number, little endian
(the byte order used to ship 32-byte X25519 keys on the wire). -/
def natToBytesLE : Nat → Nat → List Nat
  | 0, _ => []
  | k + 1, n => n % 256 :: natToBytesLE k (n / 256)

/-- Reassemble a little-endian byte string into a natural number. -/
def bytesToNatLE : List Nat → Nat
  | [] => 0
  | b :: bs => b + 256 * bytesToNatLE bs

theorem natToBytesLE_length (k n : Nat) : (natToBytesLE k n).length = k := by
  induction k generalizing n with
  | zero => rfl
  | succ k ih => simp [natToBytesLE, ih]

theorem bytesToNatLE_natToBytesLE (k n : Nat) :
    bytesToNatLE (natToBytesLE k n) = n % 256 ^ k := by
  induction k generalizing n with
  | zero => simp [natToBytesLE, bytesToNatLE, Nat.mod_one]
  | succ k ih =>
    have h : n % (256 * 256 ^ k) = n % 256 + 256 * (n / 256 % 256 ^ k) := Nat.mod_mul
    calc bytesToNatLE (natToBytesLE (k + 1) n)
        = n % 256 + 256 * (n / 256 % 256 ^ k) := by
          simp [natToBytesLE, bytesToNatLE, ih]
      _ = n % (256 * 256 ^ k) := h.symm
      _ = n % 256 ^ (k + 1) := by rw [pow_succ, mul_comm]

/-! ### The Diffie-Hellman group

`Connection::connect` uses X25519 (`EphemeralSecret` / `PublicKey` /
`diffie_hellman`), and `diffie_hellman` in `C/ezdb.c` uses OpenSSL's
`EVP_PKEY_X25519`.  These library primitives are modelled as classic
Diffie-Hellman exponentiation in the multiplicative monoid of the integers
modulo the X25519 field prime `2 ^ 255 - 19`, with the curve's base point
coordinate `9` as the generator. -/

def curveP : Nat := 2 ^ 255 - 19

instance : NeZero curveP := ⟨by decide⟩

def curveG : ZMod curveP := 9

/-- The public key derived from an ephemeral private scalar. -/
def dhPublic (a : Nat) : ZMod curveP := curveG ^ a

/-- The raw shared secret computed from one's own private scalar and the
peer's public key. -/
def dhShared (a : Nat) (peer : ZMod curveP) : ZMod curveP := peer ^ a

/-- A group element as the 32 raw bytes sent on the wire. -/
def keyToBytes (k : ZMod curveP) : List Nat := natToBytesLE 32 k.val

/-- A 32-byte wire string read back as a group element
(`PublicKey::from(key_buffer)`). -/
def bytesToKey (bs : List Nat) : ZMod curveP := (bytesToNatLE bs : Nat)

/-- The 32 public-key bytes a client with private scalar `a` sends. -/
def pubKeyBytes (a : Nat) : List Nat := keyToBytes (dhPublic a)

theorem pubKeyBytes_length (a : Nat) : (pubKeyBytes a).length = 32 := by
  simp [pubKeyBytes, keyToBytes, natToBytesLE_length]

theorem bytesToKey_keyToBytes (k : ZMod curveP) : bytesToKey (keyToBytes k) = k := by
  have hval : k.val < curveP := ZMod.val_lt k
  have hlt : k.val < 256 ^ 32 := lt_trans hval (by decide)
  have : bytesToNatLE (natToBytesLE 32 k.val) = k.val := by
    rw [bytesToNatLE_natToBytesLE, Nat.mod_eq_of_lt hlt]
  rw [bytesToKey, keyToBytes, this]
  exact ZMod.natCast_rightInverse k

theorem bytesToKey_pubKeyBytes (a : Nat) : bytesToKey (pubKeyBytes a) = dhPublic a :=
  bytesToKey_keyToBytes (dhPublic a)

/-- Both peers of an honest exchange compute the same raw shared secret. -/
theorem dhShared_comm (a b : Nat) :
    dhShared a (dhPublic b) = dhShared b (dhPublic a) := by
  simp only [dhShared, dhPublic]
  exact pow_right_comm curveG b a

/-! ### The hash used for key derivation

Modelled from the spec: `blake3_hash` — "applies a cryptographic hash
function to the raw shared secret to produce a 256-bit key".  The digest is
abstracted as a deterministic mixing function of the whole input producing
exactly 32 bytes; the state accumulator is kept below `2 ^ 32`. -/
def blake3Hash (input : List Nat) : List Nat :=
  let h := input.foldl (fun acc b => (acc * 131 + b + 7) % 2 ^ 32) 2166136261
  (List.range 32).map (fun i => (h / 2 ^ (i % 4 * 8) + i * 41 + h % 251) % 256)

theorem blake3Hash_length (input : List Nat) : (blake3Hash input).length = 32 := by
  simp [blake3Hash]

/-! ### The 1024-byte credential buffer

`Connection::connect` builds `auth_buffer : [u8; 1024]` and copies the
username into `[0, len(username))` and the password into
`[512, 512 + len(password))` with `copy_from_slice`. -/

/-- `buf[start .. start + src.len()].copy_from_slice(src)` on a list. -/
def copy_from_slice (buf : List Nat) (start : Nat) (src : List Nat) : List Nat :=
  buf.take start ++ src ++ buf.drop (start + src.length)

/-- The plaintext credential buffer of `Connection::connect`. -/
def authBuffer (username password : List Nat) : List Nat :=
  copy_from_slice (copy_from_slice (List.replicate 1024 0) 0 username) 512 password

theorem authBuffer_eq (u p : List Nat) (hu : u.length ≤ 512) (hp : p.length ≤ 512) :
    authBuffer u p =
      u ++ List.replicate (512 - u.length) 0 ++ p ++ List.replicate (512 - p.length) 0 := by
  have h1024 : u.length ≤ 1024 := le_trans hu (by norm_num)
  have hinner : copy_from_slice (List.replicate 1024 0) 0 u =
      u ++ List.replicate (1024 - u.length) 0 := by
    simp only [copy_from_slice, List.take_zero, List.nil_append, Nat.zero_add,
      List.drop_replicate]
  rw [authBuffer, hinner, copy_from_slice]
  rw [List.take_append_eq_append_take, List.take_of_length_le hu,
    List.take_replicate, List.drop_append_eq_append_drop,
    List.drop_eq_nil_of_le (le_trans hu (Nat.le_add_right 512 p.length)),
    List.drop_replicate]
  have e1 : min (512 - u.length) (1024 - u.length) = 512 - u.length := by omega
  have e2 : 1024 - u.length - (512 + p.length - u.length) = 512 - p.length := by omega
  rw [e1, e2]
  simp [List.append_assoc]

theorem authBuffer_length (u p : List Nat) (hu : u.length ≤ 512) (hp : p.length ≤ 512) :
    (authBuffer u p).length = 1024 := by
  rw [authBuffer_eq u p hu hp]
  simp only [List.length_append, List.length_replicate]
  omega

theorem getD_replicate_zero (n i : Nat) : (List.replicate n (0 : Nat)).getD i 0 = 0 := by
  induction n generalizing i with
  | zero => rfl
  | succ n ih =>
    cases i with
    | zero => rfl
    | succ j => simp only [List.replicate, List.getD_cons_succ]; exact ih j

/-! ### The encrypted credential frame

`encrypt_aes256` is not part of this repository; the sketch only calls it.
Modelled from the spec: AES-256-GCM "encrypts with an authenticated
encryption scheme under the symmetric key and a freshly generated 96-bit
nonce, producing ciphertext of the same length plus a 128-bit tag".  The
cipher body is abstracted as a deterministic byte mixer with exactly that
length contract; the nonce is an input (the caller's randomness). -/

/-- Ciphertext bytes: same length as the plaintext, each byte mixed with the
key and nonce.  `i` is the running byte index. -/
def encryptBytes (key nonce : List Nat) : Nat → List Nat → List Nat
  | _, [] => []
  | i, b :: rest =>
    (b + key.getD (i % 32) 0 + nonce.getD (i % 12) 0 + 1) % 256 ::
      encryptBytes key nonce (i + 1) rest

theorem encryptBytes_length (key nonce : List Nat) (i : Nat) (l : List Nat) :
    (encryptBytes key nonce i l).length = l.length := by
  induction l generalizing i with
  | nil => rfl
  | cons b rest ih => simp [encryptBytes, ih]

/-- The 16-byte authentication tag. -/
def gcmTag (key nonce ct : List Nat) : List Nat :=
  (blake3Hash (ct ++ key ++ nonce)).take 16

theorem gcmTag_length (key nonce ct : List Nat) : (gcmTag key nonce ct).length = 16 := by
  simp [gcmTag, List.length_take, blake3Hash_length]

/-- Modelled from the spec: `encrypt_aes256(&auth_buffer, &aes_key)` returns
the pair `(encrypted_data, data_nonce)`; `encrypted_data` is the ciphertext
followed by the 16-byte authentication tag, `data_nonce` the 12-byte nonce. -/
def encrypt_aes256 (plaintext key nonce : List Nat) : List Nat × List Nat :=
  let ct := encryptBytes key nonce 0 plaintext
  (ct ++ gcmTag key nonce ct, nonce)

theorem encrypt_aes256_fst_length (plaintext key nonce : List Nat) :
    (encrypt_aes256 plaintext key nonce).1.length = plaintext.length + 16 := by
  simp [encrypt_aes256, encryptBytes_length, gcmTag_length]

/-- The block `Connection::connect` actually transmits: `encrypted_data`
first, then `data_nonce` (`extend_from_slice(&encrypted_data)` followed by
`extend_from_slice(&data_nonce)`). -/
def encryptedDataBlock (plaintext key nonce : List Nat) : List Nat :=
  let pair := encrypt_aes256 plaintext key nonce
  pair.1 ++ pair.2

/-- The credential frame laid out as the spec's words state it:
"nonce(12) || ciphertext(1024) || tag(16)" — the nonce first, then the
ciphertext-with-tag. -/
def specClaimedFrame (nonce ciphertext_and_tag : List Nat) : List Nat :=
  nonce ++ ciphertext_and_tag

theorem encryptedDataBlock_eq (plaintext key nonce : List Nat) :
    encryptedDataBlock plaintext key nonce =
      (encrypt_aes256 plaintext key nonce).1 ++ nonce := rfl

theorem encryptedDataBlock_length (plaintext key nonce : List Nat) :
    (encryptedDataBlock plaintext key nonce).length = plaintext.length + 16 + nonce.length := by
  simp [encryptedDataBlock, encrypt_aes256, encryptBytes_length, gcmTag_length]
  omega

/-! ### Transport events

All network I/O a client run performs is recorded as an explicit trace.
`recv` is the byte string obtained from the stream, `send` the byte string
passed to a write call, `recvLine` the UTF-8 control line the server
replies after authentication. -/

inductive IoEvent where
  | recv (bytes : List Nat)
  | send (bytes : List Nat)
  | recvLine (line : String)
deriving DecidableEq

/-- Error type of the client (`EzError` in the sketch, flattened:
`Authentication(TooLong)`, `Authentication(WrongUser)`,
`Authentication(WrongPassword)`, and the UTF-8 conversion failure that
`bytes_to_str(&data)?` propagates). -/
inductive EzError where
  | TooLong
  | WrongUser (user : List Nat)
  | WrongPassword
  | Utf8Error
deriving DecidableEq

/-- The connection produced by a successful `Connection::connect`
(the stream handle itself carries no state the claims mention). -/
structure Connection where
  user : List Nat
  aes_key : List Nat
deriving DecidableEq

/-- The symmetric key `Connection::connect` derives:
`blake3_hash(&client_private_key.diffie_hellman(&server_public_key).to_bytes())`. -/
def connAesKey (priv : Nat) (serverKeyBytes : List Nat) : List Nat :=
  blake3Hash (keyToBytes (dhShared priv (bytesToKey serverKeyBytes)))

/-- Shallow embedding of the commented Rust sketch `Connection::connect`
(`src/client_libs/ezdb.c`, lines 89-135).  Inputs that the environment
supplies are parameters: the ephemeral private scalar, the fresh nonce, and
the 32 bytes `read_exact` obtains from the server.  The returned trace
lists every transport operation in program order. -/
def Connection.connect (username password : List Nat) (priv : Nat)
    (nonce serverKeyBytes : List Nat) :
    Except EzError Connection × List IoEvent :=
  if 512 < username.length ∨ 512 < password.length then
    (Except.error EzError.TooLong, [])
  else
    let client_public_key := pubKeyBytes priv
    let aes_key := connAesKey priv serverKeyBytes
    let auth_buffer := authBuffer username password
    let encrypted_data_block := encryptedDataBlock auth_buffer aes_key nonce
    (Except.ok (Connection.mk username aes_key),
      [IoEvent.recv serverKeyBytes, IoEvent.send client_public_key,
        IoEvent.send encrypted_data_block])

/-- The symmetric key of the session `Connection.connect` returns, if any. -/
def connectKey (username password : List Nat) (priv : Nat)
    (nonce serverKeyBytes : List Nat) : Option (List Nat) :=
  match (Connection.connect username password priv nonce serverKeyBytes).1 with
  | Except.ok c => some c.aes_key
  | Except.error _ => none

/-- Modelled from the spec: the honest server peer of the exchange —
"two honest peers performing the same exchange must derive bit-identical
keys".  The server holds private scalar `b`, receives the client's 32
public-key bytes, and derives its key the same way. -/
def serverSessionKey (b : Nat) (clientPubBytes : List Nat) : List Nat :=
  blake3Hash (keyToBytes (dhShared b (bytesToKey clientPubBytes)))

/-! ### Response classification and the query round-trip -/

/-- Outcome of matching the server's control line, embedded from the
`match response.as_str()` in `query_table`.  The default arm of the source
is `e => panic!("Need to handle error: {}", e)`; it is represented by the
`panicked` constructor. -/
inductive ResponseClass where
  | success
  | wrongUser
  | wrongPassword
  | panicked (line : String)
deriving DecidableEq

/-- The four-way classification of the first server reply
(`query_table`, `src/client_libs/ezdb.c` lines 159-176). -/
def classify (line : String) : ResponseClass :=
  if line = "OK" then ResponseClass.success
  else if line = "Username is incorrect" then ResponseClass.wrongUser
  else if line = "Password is incorrect" then ResponseClass.wrongPassword
  else ResponseClass.panicked line

/-- Standard UTF-8 validity of a byte string, modelling the
`String::from_utf8` / `bytes_to_str` boundary of the sketch (both are
library functions; the spec fixes their contract: "if the bytes are valid
UTF-8, wrap as `Message`"). -/
def utf8Valid : List Nat → Bool
  | [] => true
  | b :: rest =>
    if b ≤ 0x7F then utf8Valid rest
    else if 0xC2 ≤ b ∧ b ≤ 0xDF then
      match rest with
      | c1 :: rest1 =>
        if 0x80 ≤ c1 ∧ c1 ≤ 0xBF then utf8Valid rest1 else false
      | [] => false
    else if b = 0xE0 then
      match rest with
      | c1 :: c2 :: rest2 =>
        if (0xA0 ≤ c1 ∧ c1 ≤ 0xBF) ∧ (0x80 ≤ c2 ∧ c2 ≤ 0xBF) then utf8Valid rest2 else false
      | _ => false
    else if (0xE1 ≤ b ∧ b ≤ 0xEC) ∨ b = 0xEE ∨ b = 0xEF then
      match rest with
      | c1 :: c2 :: rest2 =>
        if (0x80 ≤ c1 ∧ c1 ≤ 0xBF) ∧ (0x80 ≤ c2 ∧ c2 ≤ 0xBF) then utf8Valid rest2 else false
      | _ => false
    else if b = 0xED then
      match rest with
      | c1 :: c2 :: rest2 =>
        if (0x80 ≤ c1 ∧ c1 ≤ 0x9F) ∧ (0x80 ≤ c2 ∧ c2 ≤ 0xBF) then utf8Valid rest2 else false
      | _ => false
    else if b = 0xF0 then
      match rest with
      | c1 :: c2 :: c3 :: rest3 =>
        if (0x90 ≤ c1 ∧ c1 ≤ 0xBF) ∧ (0x80 ≤ c2 ∧ c2 ≤ 0xBF) ∧ (0x80 ≤ c3 ∧ c3 ≤ 0xBF) then
          utf8Valid rest3
        else false
      | _ => false
    else if 0xF1 ≤ b ∧ b ≤ 0xF3 then
      match rest with
      | c1 :: c2 :: c3 :: rest3 =>
        if (0x80 ≤ c1 ∧ c1 ≤ 0xBF) ∧ (0x80 ≤ c2 ∧ c2 ≤ 0xBF) ∧ (0x80 ≤ c3 ∧ c3 ≤ 0xBF) then
          utf8Valid rest3
        else false
      | _ => false
    else if b = 0xF4 then
      match rest with
      | c1 :: c2 :: c3 :: rest3 =>
        if (0x80 ≤ c1 ∧ c1 ≤ 0x8F) ∧ (0x80 ≤ c2 ∧ c2 ≤ 0xBF) ∧ (0x80 ≤ c3 ∧ c3 ≤ 0xBF) then
          utf8Valid rest3
        else false
      | _ => false
    else false

/-- The result payload decoded at the caller boundary.  A `String` is
represented by its UTF-8 bytes (`Message`), an opaque `ColumnTable` by its
raw bytes (`Table`). -/
inductive Response where
  | Message (utf8Bytes : List Nat)
  | Table (bytes : List Nat)
deriving DecidableEq

/-- What a `query_table` run produces: a value, a typed error, or the
process abort of the source's `panic!` arm. -/
inductive QueryResult where
  | ok (r : Response)
  | err (e : EzError)
  | panicked (line : String)
deriving DecidableEq

/-- The two acknowledgment bytes `"OK".as_bytes()`. -/
def okBytes : List Nat := [79, 75]

/-- Modelled from the spec: `instruction_send_and_confirm` serializes
`Instruction::Query(text)` "as an application-defined tag byte followed by
a length-prefixed text" (the function itself is not in this repository). -/
def encodeInstruction (query : List Nat) : List Nat :=
  0 :: natToBytesLE 8 query.length ++ query

/-- Environment of one `query_table` run: the connect inputs plus the
control line the server replies and the bulk payload it then sends. -/
structure QueryInput where
  username : List Nat
  password : List Nat
  client_private_key : Nat
  nonce : List Nat
  server_key_bytes : List Nat
  response_line : String
  payload : List Nat

/-- Shallow embedding of the commented Rust sketch `query_table`
(`src/client_libs/ezdb.c`, lines 144-194): connect, send the instruction,
read the control line, and on success receive the length-prefixed payload
(`receive_data`, modelled from the spec as a length-prefix read followed by
the payload read), then print it with `bytes_to_str(&data)?` — whose `?`
propagates a UTF-8 error — then write the `"OK"` acknowledgment and decode. -/
def query_table (qi : QueryInput) (query : List Nat) : QueryResult × List IoEvent :=
  match Connection.connect qi.username qi.password qi.client_private_key
      qi.nonce qi.server_key_bytes with
  | (Except.error e, trace) => (QueryResult.err e, trace)
  | (Except.ok conn, trace) =>
    let trace1 := trace ++
      [IoEvent.send (encodeInstruction query), IoEvent.recvLine qi.response_line]
    match classify qi.response_line with
    | ResponseClass.success =>
      let trace2 := trace1 ++
        [IoEvent.recv (natToBytesLE 8 qi.payload.length), IoEvent.recv qi.payload]
      if utf8Valid qi.payload then
        (QueryResult.ok (Response.Message qi.payload), trace2 ++ [IoEvent.send okBytes])
      else
        (QueryResult.err EzError.Utf8Error, trace2)
    | ResponseClass.wrongUser => (QueryResult.err (EzError.WrongUser conn.user), trace1)
    | ResponseClass.wrongPassword => (QueryResult.err EzError.WrongPassword, trace1)
    | ResponseClass.panicked line => (QueryResult.panicked line, trace1)

/-! ### The C client (`src/client_libs/C/ezdb.c` and `src/client_libs/ezdb.c`)

The C code reads from the socket with a single `read(2)` call.  A stream is
modelled as the list of byte fragments the kernel has buffered; one `read`
call delivers at most the first fragment. -/

/-- One `read(fd, buf, count)` call: it returns the delivered bytes (at most
`count`, and never more than the first buffered fragment) and the remaining
stream. -/
def readOnce (fragments : List (List Nat)) (count : Nat) :
    List Nat × List (List Nat) :=
  match fragments with
  | [] => ([], [])
  | f :: rest =>
    let delivered := f.take count
    let leftover := f.drop count
    (delivered, if leftover.isEmpty then rest else leftover :: rest)

/-- Embedding of the secret-derivation portion of `diffie_hellman`
(`src/client_libs/C/ezdb.c`, lines 117-140): the received bytes are loaded
into `peerkey` via `EVP_PKEY_set1_tls_encodedpoint`, but the next statement
`peerkey = pkey;` overwrites the handle with the client's own key, so the
secret is derived from the client's own key pair. -/
def derive_shared_secret (priv : Nat) (server_public_key : List Nat) : List Nat :=
  let _peerkey_from_bytes := bytesToKey server_public_key
  let peerkey := dhPublic priv
  keyToBytes (dhShared priv peerkey)

/-- Embedding of `diffie_hellman` (`src/client_libs/C/ezdb.c`, lines
80-160).  The 32-byte buffer is zeroed by `memset`, a single `read` fills
its prefix, and the guard `if (read_error_check != 0) return NULL;`
rejects the run whenever the read delivered any bytes at all (the code
treats the returned byte count as an error code). -/
def diffie_hellman (priv : Nat) (fragments : List (List Nat)) :
    Option (List Nat) :=
  let read_result := readOnce fragments 32
  if read_result.1.length ≠ 0 then none
  else
    let server_public_key := read_result.1 ++ List.replicate (32 - read_result.1.length) 0
    some (derive_shared_secret priv server_public_key)

/-- OpenSSL `DH` object state after `DH_generate_parameters_ex` and
`DH_generate_key`: modulus, generator, the ephemeral private key, and the
matching public key `g ^ priv mod p`. -/
structure DH where
  p : Nat
  g : Nat
  priv_key : Nat
  pub_key : Nat
deriving DecidableEq

def DH_generate_key (p g priv : Nat) : DH := DH.mk p g priv (g ^ priv % p)

def DH_get0_priv_key (dh : DH) : Nat := dh.priv_key

def DH_get0_pub_key (dh : DH) : Nat := dh.pub_key

/-- The local key variables of `connect_to_db_server` after line 59. -/
structure ConnectCState where
  private_key : Nat
  public_key : Nat
  dh : DH
deriving DecidableEq

/-- Embedding of `connect_to_db_server` (`src/client_libs/ezdb.c`, lines
32-59): the credential length check happens first, before any socket is
even created; then a DH key pair is generated and the two local variables
`private_key` (line 51) and `public_key` (line 56) are both initialised
from `DH_get0_priv_key(dh)`.  (The function then opens a socket and does
one unchecked 32-byte `read`, which touches neither variable.) -/
def connect_to_db_server (username password : List Nat)
    (dh_randomness p g : Nat) : Option ConnectCState :=
  if 512 < username.length ∨ 512 < password.length then none
  else
    let dh := DH_generate_key p g dh_randomness
    let private_key := DH_get0_priv_key dh
    let public_key := DH_get0_priv_key dh
    some (ConnectCState.mk private_key public_key dh)

/-! ### The claims -/

/-- C1: for every completed key-agreement exchange, the 256-bit symmetric
session key equals a cryptographic hash applied to the raw ECDH shared
secret, and two honest peers performing the same exchange derive
bit-identical keys.  With client scalar `a` and honest server scalar `b`
(server sends `pubKeyBytes b`, client sends `pubKeyBytes a`), the key the
client stores is `blake3Hash` of the raw shared secret, is 32 bytes long,
and equals the key the server derives. -/
theorem c1_session_key (u p : List Nat) (a b : Nat) (nonce : List Nat)
    (hu : u.length ≤ 512) (hp : p.length ≤ 512) :
    connectKey u p a nonce (pubKeyBytes b) =
      some (blake3Hash (keyToBytes (dhShared a (dhPublic b)))) ∧
    connectKey u p a nonce (pubKeyBytes b) = some (serverSessionKey b (pubKeyBytes a)) ∧
    (connectKey u p a nonce (pubKeyBytes b)).map List.length = some 32 := by
  have hcond : ¬(512 < u.length ∨ 512 < p.length) := by omega
  have hck : connectKey u p a nonce (pubKeyBytes b) =
      some (connAesKey a (pubKeyBytes b)) := by
    simp only [connectKey, Connection.connect, if_neg hcond]
  have hkey : connAesKey a (pubKeyBytes b) =
      blake3Hash (keyToBytes (dhShared a (dhPublic b))) := by
    rw [connAesKey, bytesToKey_pubKeyBytes]
  have hserver : serverSessionKey b (pubKeyBytes a) =
      blake3Hash (keyToBytes (dhShared a (dhPublic b))) := by
    rw [serverSessionKey, bytesToKey_pubKeyBytes, dhShared_comm b a]
  refine ⟨?_, ?_, ?_⟩
  · rw [hck, hkey]
  · rw [hck, hkey, hserver]
  · rw [hck, hkey]
    simp [blake3Hash_length]

theorem c1_witness :
    connectKey [1] [2] 3 (List.replicate 12 0) (pubKeyBytes 5) =
      some (blake3Hash (keyToBytes (dhShared 3 (dhPublic 5)))) ∧
    connectKey [1] [2] 3 (List.replicate 12 0) (pubKeyBytes 5) =
      some (serverSessionKey 5 (pubKeyBytes 3)) ∧
    (connectKey [1] [2] 3 (List.replicate 12 0) (pubKeyBytes 5)).map List.length = some 32 :=
  c1_session_key [1] [2] 3 5 (List.replicate 12 0) (by decide) (by decide)

/-- C2: in every handshake run of `Connection::connect` the client first
receives exactly 32 bytes (the peer's public key) from the transport and
only afterwards sends its own 32-byte ephemeral public key: the first two
events of the trace are that `recv` followed by that `send`. -/
theorem c2_read_then_send (u p : List Nat) (priv : Nat) (nonce skb : List Nat)
    (hu : u.length ≤ 512) (hp : p.length ≤ 512) (hsk : skb.length = 32) :
    (Connection.connect u p priv nonce skb).2.take 2 =
      [IoEvent.recv skb, IoEvent.send (pubKeyBytes priv)] ∧
    skb.length = 32 ∧ (pubKeyBytes priv).length = 32 := by
  have hcond : ¬(512 < u.length ∨ 512 < p.length) := by omega
  refine ⟨?_, hsk, pubKeyBytes_length priv⟩
  simp only [Connection.connect, if_neg hcond]
  rfl

theorem c2_witness :
    (Connection.connect [1] [2] 3 (List.replicate 12 0) (List.replicate 32 4)).2.take 2 =
      [IoEvent.recv (List.replicate 32 4), IoEvent.send (pubKeyBytes 3)] ∧
    (List.replicate 32 (4 : Nat)).length = 32 ∧ (pubKeyBytes 3).length = 32 :=
  c2_read_then_send [1] [2] 3 (List.replicate 12 0) (List.replicate 32 4)
    (by decide) (by decide) (by decide)

/-- C3, counterexample: the claim says the credential frame is laid out as
nonce(12) || ciphertext(1024) || tag(16), but the block the sketch builds
appends the nonce last; at a concrete input the transmitted block differs
from the nonce-first layout. -/
theorem c3_counterexample :
    encryptedDataBlock (authBuffer [1] [2]) (List.replicate 32 7) (List.replicate 12 9) ≠
      specClaimedFrame (List.replicate 12 9)
        ((encrypt_aes256 (authBuffer [1] [2]) (List.replicate 32 7)
          (List.replicate 12 9)).1) := by
  decide

/-- C3, amended: for credentials of length at most 512 the encrypted
credential frame written to the transport is ciphertext (1024 bytes)
followed by tag (16 bytes) followed by nonce (12 bytes), a fixed total of
1052 bytes, sent as the single third trace event with no additional length
header. -/
theorem c3_frame_layout (u p : List Nat) (priv : Nat) (nonce skb : List Nat)
    (hu : u.length ≤ 512) (hp : p.length ≤ 512) (hn : nonce.length = 12) :
    (Connection.connect u p priv nonce skb).2 =
      [IoEvent.recv skb, IoEvent.send (pubKeyBytes priv),
        IoEvent.send (encryptedDataBlock (authBuffer u p) (connAesKey priv skb) nonce)] ∧
    encryptedDataBlock (authBuffer u p) (connAesKey priv skb) nonce =
      (encrypt_aes256 (authBuffer u p) (connAesKey priv skb) nonce).1 ++ nonce ∧
    (encrypt_aes256 (authBuffer u p) (connAesKey priv skb) nonce).1.length = 1040 ∧
    (encryptedDataBlock (authBuffer u p) (connAesKey priv skb) nonce).length = 1052 := by
  have hcond : ¬(512 < u.length ∨ 512 < p.length) := by omega
  have hab : (authBuffer u p).length = 1024 := authBuffer_length u p hu hp
  refine ⟨?_, encryptedDataBlock_eq _ _ _, ?_, ?_⟩
  · simp only [Connection.connect, if_neg hcond]
  · rw [encrypt_aes256_fst_length, hab]
  · rw [encryptedDataBlock_length, hab, hn]

theorem c3_witness :
    (Connection.connect [1] [2] 3 (List.replicate 12 9) (List.replicate 32 4)).2 =
      [IoEvent.recv (List.replicate 32 4), IoEvent.send (pubKeyBytes 3),
        IoEvent.send (encryptedDataBlock (authBuffer [1] [2])
          (connAesKey 3 (List.replicate 32 4)) (List.replicate 12 9))] ∧
    encryptedDataBlock (authBuffer [1] [2]) (connAesKey 3 (List.replicate 32 4))
        (List.replicate 12 9) =
      (encrypt_aes256 (authBuffer [1] [2]) (connAesKey 3 (List.replicate 32 4))
        (List.replicate 12 9)).1 ++ List.replicate 12 9 ∧
    (encrypt_aes256 (authBuffer [1] [2]) (connAesKey 3 (List.replicate 32 4))
      (List.replicate 12 9)).1.length = 1040 ∧
    (encryptedDataBlock (authBuffer [1] [2]) (connAesKey 3 (List.replicate 32 4))
      (List.replicate 12 9)).length = 1052 :=
  c3_frame_layout [1] [2] 3 (List.replicate 12 9) (List.replicate 32 4)
    (by decide) (by decide) (by decide)

/-- C4: for usernames and passwords of length at most 512 the 1024-byte
plaintext credential buffer carries the username bytes at offsets
`[0, len u)`, the password bytes at offsets `[512, 512 + len p)`, and zero
bytes at every other position. -/
theorem c4_auth_buffer_layout (u p : List Nat) (hu : u.length ≤ 512) (hp : p.length ≤ 512) :
    (authBuffer u p).length = 1024 ∧
    (∀ i, i < u.length → (authBuffer u p).getD i 0 = u.getD i 0) ∧
    (∀ i, i < p.length → (authBuffer u p).getD (512 + i) 0 = p.getD i 0) ∧
    (∀ i, i < 1024 → u.length ≤ i → (i < 512 ∨ 512 + p.length ≤ i) →
      (authBuffer u p).getD i 0 = 0) := by
  have hb := authBuffer_eq u p hu hp
  have h12 : (u ++ List.replicate (512 - u.length) (0 : Nat)).length = 512 := by
    simp only [List.length_append, List.length_replicate]
    omega
  have h123 : ((u ++ List.replicate (512 - u.length) (0 : Nat)) ++ p).length =
      512 + p.length := by
    simp only [List.length_append, List.length_replicate]
    omega
  refine ⟨authBuffer_length u p hu hp, ?_, ?_, ?_⟩
  · intro i hi
    rw [hb]
    rw [List.getD_append _ _ _ _ (by rw [h123]; omega)]
    rw [List.getD_append _ _ _ _ (by rw [h12]; omega)]
    rw [List.getD_append _ _ _ _ hi]
  · intro i hi
    rw [hb]
    rw [List.getD_append _ _ _ _ (by rw [h123]; omega)]
    rw [List.getD_append_right _ _ _ _ (by rw [h12]; omega)]
    rw [h12]
    rw [show 512 + i - 512 = i by omega]
  · intro i hi1 hi2 hi3
    rw [hb]
    rcases hi3 with h3 | h3
    · rw [List.getD_append _ _ _ _ (by rw [h123]; omega)]
      rw [List.getD_append _ _ _ _ (by rw [h12]; omega)]
      rw [List.getD_append_right _ _ _ _ hi2]
      exact getD_replicate_zero _ _
    · rw [List.getD_append_right _ _ _ _ (by rw [h123]; omega)]
      exact getD_replicate_zero _ _

theorem c4_witness :
    (authBuffer [1, 2] [3]).length = 1024 ∧
    (authBuffer [1, 2] [3]).getD 1 0 = ([1, 2] : List Nat).getD 1 0 ∧
    (authBuffer [1, 2] [3]).getD (512 + 0) 0 = ([3] : List Nat).getD 0 0 ∧
    (authBuffer [1, 2] [3]).getD 700 0 = 0 := by
  have h := c4_auth_buffer_layout [1, 2] [3] (by decide) (by decide)
  exact ⟨h.1, h.2.1 1 (by decide), h.2.2.1 0 (by decide),
    h.2.2.2 700 (by decide) (by decide) (by decide)⟩

/-- C5: when the username or the password is longer than 512 bytes, session
construction fails with the `TooLong` authentication error and performs no
transport operation at all — the Rust sketch returns the error with an
empty trace, and the C `connect_to_db_server` bails out before a socket is
created. -/
theorem c5_too_long (u p : List Nat) (priv : Nat) (nonce skb : List Nat)
    (r dp dg : Nat) (h : 512 < u.length ∨ 512 < p.length) :
    Connection.connect u p priv nonce skb = (Except.error EzError.TooLong, []) ∧
    connect_to_db_server u p r dp dg = none := by
  constructor
  · simp only [Connection.connect, if_pos h]
  · simp only [connect_to_db_server, if_pos h]

set_option maxRecDepth 4096 in
theorem c5_witness :
    Connection.connect (List.replicate 513 7) [1] 3 (List.replicate 12 0)
      (List.replicate 32 4) = (Except.error EzError.TooLong, []) ∧
    connect_to_db_server (List.replicate 513 7) [1] 9 23 5 = none :=
  c5_too_long (List.replicate 513 7) [1] 3 (List.replicate 12 0)
    (List.replicate 32 4) 9 23 5 (Or.inl (by simp))

/-- C6: the classifier of `query_table` treats exactly the literal "OK" as
success, exactly "Username is incorrect" as the wrong-user outcome and
exactly "Password is incorrect" as the wrong-password outcome; on every
other line the code reaches the `panic!("Need to handle error: ...")` arm
instead of returning the typed `UnrecognizedResponse` error the claim
describes. -/
theorem c6_classifier : ∀ (line : String),
    (classify line = ResponseClass.success ↔ line = ("OK")) ∧
    (classify line = ResponseClass.wrongUser ↔ line = ("Username is incorrect")) ∧
    (classify line = ResponseClass.wrongPassword ↔ line = ("Password is incorrect")) ∧
    (classify line = ResponseClass.panicked line ↔
      (line ≠ ("OK") ∧ line ≠ ("Username is incorrect") ∧
        line ≠ ("Password is incorrect"))) := by
  intro line
  by_cases h1 : line = ("OK")
  · subst h1; decide
  · by_cases h2 : line = ("Username is incorrect")
    · subst h2; decide
    · by_cases h3 : line = ("Password is incorrect")
      · subst h3; decide
      · refine ⟨?_, ?_, ?_, ?_⟩ <;> simp [classify, h1, h2, h3]

/-- The environment of the C7 run: a well-formed handshake, the server
replies "OK", then sends the single payload byte `0xFF`, which is not
valid UTF-8. -/
def c7Input : QueryInput :=
  QueryInput.mk [97] [98] 3 (List.replicate 12 1) (List.replicate 32 4) ("OK") [255]

set_option maxRecDepth 100000 in
/-- C7: evaluating `query_table` at a run whose payload is the single byte
`0xFF` (received in full) shows the divergence: the `?` on the debug print
`bytes_to_str(&data)?` propagates a UTF-8 error before the acknowledgment
is written, so the trace contains the payload `recv` but no "OK" `send`,
contradicting the claim that the acknowledgment is written regardless of
how the payload is later interpreted. -/
theorem c7_no_ack_on_invalid_utf8 :
    (query_table c7Input [113]).1 = QueryResult.err EzError.Utf8Error ∧
    ((query_table c7Input [113]).2).countP
      (fun e => decide (e = IoEvent.send okBytes)) = 0 ∧
    ((query_table c7Input [113]).2).countP
      (fun e => decide (e = IoEvent.recv [255])) = 1 := by
  decide

/-- C8: the client's receive primitive does not loop over partial reads.
A single `read` over a stream buffered as 1-byte fragments delivers one
byte, not 32; and `diffie_hellman`'s guard `if (read_error_check != 0)
return NULL;` makes the function return NULL precisely when the read
delivered bytes, so even a stream that delivers all 32 bytes at once makes
the handshake fail. -/
theorem c8_single_read_no_loop :
    (readOnce (List.replicate 32 [7]) 32).1 = [7] ∧
    (readOnce (List.replicate 32 [7]) 32).1.length ≠ 32 ∧
    diffie_hellman 5 [List.replicate 32 9] = none := by
  decide

/-- C9: in `connect_to_db_server` the local variables `private_key` and
`public_key` are both obtained from the accessor `DH_get0_priv_key`, so in
every run that reaches them the value the function treats as the public
key is identical to the ephemeral private key. -/
theorem c9_pub_key_is_priv_key (u p : List Nat) (r dp dg : Nat) (st : ConnectCState)
    (h : connect_to_db_server u p r dp dg = some st) :
    st.public_key = st.private_key ∧ st.public_key = DH_get0_priv_key st.dh ∧
    st.public_key = r := by
  by_cases hc : 512 < u.length ∨ 512 < p.length
  · simp [connect_to_db_server, hc] at h
  · simp only [connect_to_db_server, if_neg hc, Option.some.injEq] at h
    subst h
    exact ⟨rfl, rfl, rfl⟩

theorem c9_witness :
    (ConnectCState.mk 7 7 (DH_generate_key 23 5 7)).public_key =
      (ConnectCState.mk 7 7 (DH_generate_key 23 5 7)).private_key ∧
    (ConnectCState.mk 7 7 (DH_generate_key 23 5 7)).public_key =
      DH_get0_priv_key (ConnectCState.mk 7 7 (DH_generate_key 23 5 7)).dh ∧
    (ConnectCState.mk 7 7 (DH_generate_key 23 5 7)).public_key = 7 :=
  c9_pub_key_is_priv_key [1] [2] 7 23 5 (ConnectCState.mk 7 7 (DH_generate_key 23 5 7))
    (by decide)

/-- C10: in `diffie_hellman` the peer-key handle is reassigned to the
client's own generated key (`peerkey = pkey;`) before derivation, so the
bytes in the `server_public_key` buffer never influence the derived secret,
and any two runs of the function that pass the read guard produce the same
result whatever the stream delivered. -/
theorem c10_server_bytes_ignored (priv : Nat) (buf1 buf2 : List Nat)
    (f1 f2 : List (List Nat))
    (h1 : (readOnce f1 32).1.length = 0) (h2 : (readOnce f2 32).1.length = 0) :
    derive_shared_secret priv buf1 = derive_shared_secret priv buf2 ∧
    diffie_hellman priv f1 = diffie_hellman priv f2 := by
  constructor
  · rfl
  · simp [diffie_hellman, derive_shared_secret, h1, h2]

theorem c10_witness :
    derive_shared_secret 3 [0] = derive_shared_secret 3 [255] ∧
    diffie_hellman 3 [] = diffie_hellman 3 [[]] :=
  c10_server_bytes_ignored 3 [0] [255] [] [[]] (by decide) (by decide)
